import Mathlib

set_option maxRecDepth 100000

/-!
Verification of the VRM exporter core (io_scene_vrm) against its
natural-language specification.  Python functions from the repository are
shallowly embedded as executable Lean definitions: Python floats become
exact rationals (integer numerator/denominator pairs) together with explicit
IEEE-754 round-to-nearest-even rounding wherever the code performs float
arithmetic, fallible Python code (raising exceptions) returns a `PyResult`,
and the stateful export loops become explicit folds over lists.
-/

/-- Result of a Python call: either a returned value or a raised exception
(identified by its message / exception-class name). -/
inductive PyResult (α : Type) : Type where
  | ok (val : α) : PyResult α
  | exn (msg : String) : PyResult α
deriving DecidableEq, Repr

/-! ## Exact rational values

A Python float is an exact rational number; we represent it as an integer
pair `num / den` with `0 < den`.  (Mathlib's `ℚ` is not used inside the
executable definitions because its arithmetic does not reduce inside the
kernel; `toRat` injects these values into `ℚ` for order-theoretic
statements.)  All constructors used by the model produce `gcd`-reduced
values with positive denominator. -/
structure Frac : Type where
  num : ℤ
  den : ℤ
deriving DecidableEq, Repr

/-- The rational value of a `Frac`. -/
def Frac.toRat (f : Frac) : ℚ := (f.num : ℚ) / (f.den : ℚ)

/-- Canonical form: positive denominator, numerator and denominator coprime
(0 is represented as `0 / 1`). -/
def Frac.norm (a : Frac) : Frac :=
  if (Int.gcd a.num a.den : ℤ) = 0 then ⟨0, 1⟩
  else
    ⟨(if a.den < 0 then -1 else 1) * a.num / (Int.gcd a.num a.den : ℤ),
     (if a.den < 0 then -1 else 1) * a.den / (Int.gcd a.num a.den : ℤ)⟩

def Frac.add (a b : Frac) : Frac :=
  Frac.norm ⟨a.num * b.den + b.num * a.den, a.den * b.den⟩

def Frac.sub (a b : Frac) : Frac :=
  Frac.norm ⟨a.num * b.den - b.num * a.den, a.den * b.den⟩

def Frac.mul (a b : Frac) : Frac :=
  Frac.norm ⟨a.num * b.num, a.den * b.den⟩

/-- Exact division (the value of `b` must be nonzero, as for Python `/`
after its `ZeroDivisionError` check). -/
def Frac.div (a b : Frac) : Frac :=
  Frac.norm ⟨a.num * b.den, a.den * b.num⟩

def Frac.abs (a : Frac) : Frac := ⟨(a.num.natAbs : ℤ), (a.den.natAbs : ℤ)⟩

def Frac.ofInt (n : ℤ) : Frac := ⟨n, 1⟩

/-- Comparison of values, valid on positive denominators (every float is
represented that way). -/
def Frac.lt (a b : Frac) : Prop := a.num * b.den < b.num * a.den

def Frac.le (a b : Frac) : Prop := a.num * b.den ≤ b.num * a.den

instance (a b : Frac) : Decidable (Frac.lt a b) := by
  unfold Frac.lt; infer_instance

instance (a b : Frac) : Decidable (Frac.le a b) := by
  unfold Frac.le; infer_instance

/-! ## IEEE-754 binary floating point

`io_scene_vrm/vrm_types.py` simulates the glTF export/import cycle by
round-tripping Python floats (binary64) through `struct.pack("<ffff", ...)`
(binary32).  We model a binary floating-point format with `prec` significand
bits and subnormal exponent floor `emin` by the rounding function
`roundFP`: round to nearest, ties to even.  Overflow to infinity is not
modelled: every value handled by the claims lies well inside the finite
range of both formats. -/

/-- Fuel-bounded `⌊log₂ n⌋` (`nbits fuel n` halves `n` until it reaches 1;
4096 units of fuel cover every number appearing in any computation here). -/
def nbits : ℕ → ℕ → ℕ
  | 0, _ => 0
  | fuel + 1, n => if n ≤ 1 then 0 else nbits fuel (n / 2) + 1

/-- For a value with `num ≠ 0` and `0 < den`, the unique `e` with
`2 ^ e ≤ |num / den| < 2 ^ (e + 1)`: the bit-length difference of numerator
and denominator, corrected by one when needed. -/
def floorLog2F (f : Frac) : ℤ :=
  let a := f.num.natAbs
  let b := f.den.natAbs
  let d : ℤ := (nbits 4096 a : ℤ) - (nbits 4096 b : ℤ)
  if (if 0 ≤ d then b * 2 ^ d.toNat ≤ a else b ≤ a * 2 ^ (-d).toNat) then d
  else d - 1

/-- Round the value of `f` to the nearest number `m * 2 ^ g` representable
with a `prec`-bit significand and subnormal exponent floor `emin`
(round to nearest, ties to even). -/
def roundFP (prec : ℕ) (emin : ℤ) (f : Frac) : Frac :=
  if f.num = 0 then ⟨0, 1⟩
  else
    let g : ℤ := max (floorLog2F f - ((prec : ℤ) - 1)) emin
    let sn : ℤ := if 0 ≤ g then f.num else f.num * 2 ^ (-g).toNat
    let sd : ℤ := if 0 ≤ g then f.den * 2 ^ g.toNat else f.den
    let fl : ℤ := Int.fdiv sn sd
    let r : ℤ := sn - fl * sd
    let m : ℤ :=
      if 2 * r < sd then fl
      else if sd < 2 * r then fl + 1
      else if fl % 2 = 0 then fl else fl + 1
    Frac.norm (if 0 ≤ g then ⟨m * 2 ^ g.toNat, 1⟩ else ⟨m, 2 ^ (-g).toNat⟩)

/-- Rounding to IEEE binary32 (the `struct.pack("<ffff", ...)` round trip):
24 significand bits, smallest positive subnormal `2 ^ (-149)`. -/
def round32 : Frac → Frac := roundFP 24 (-149)

/-- Rounding to IEEE binary64 (Python float arithmetic): 53 significand
bits, smallest positive subnormal `2 ^ (-1074)`. -/
def round64 : Frac → Frac := roundFP 53 (-1074)

/-- `sys.float_info.epsilon = 2 ** (-52)`, the machine epsilon of binary64. -/
def floatInfoEpsilon : Frac := ⟨1, 2 ^ 52⟩

/-- Python `sum` over a list of floats: left fold of binary64 additions,
each individual addition rounded. -/
def pySum (l : List Frac) : Frac :=
  l.foldl (fun acc x => round64 (acc.add x)) ⟨0, 1⟩

/-- Value of `math.fsum(l)`: the exact sum, correctly rounded once. -/
def pyFsum (l : List Frac) : Frac :=
  round64 (l.foldl Frac.add ⟨0, 1⟩)

/-! ## vrm_types.normalize_weights_compatible_with_gl_float -/

/-- The `to_gl_float` helper of `normalize_weights_compatible_with_gl_float`:
`struct.unpack("<ffff", struct.pack("<ffff", *array4))`, i.e. every
component is round-tripped through binary32. -/
def to_gl_float (l : List Frac) : List Frac := l.map round32

/-- Error measure used inside the loop: `abs(1 - math.fsum(weights))`, the
final subtraction being a binary64 operation. -/
def fsumError (l : List Frac) : Frac :=
  Frac.abs (round64 ((Frac.ofInt 1).sub (pyFsum l)))

/-- One candidate iterate: `to_gl_float([weights[i] / sum(weights) for i in
range(4)])`.  Python raises `ZeroDivisionError` when `sum(weights) == 0`;
the division itself is a binary64 operation.  The list always has length 4
at this point, so `weights[i]` is `getD i`. -/
def glNextWeights (l : List Frac) : PyResult (List Frac) :=
  let s := pySum l
  if s.num = 0 then .exn "ZeroDivisionError"
  else
    .ok (to_gl_float ((List.range 4).map fun i =>
      round64 ((l.getD i ⟨0, 1⟩).div s)))

/-- The `for _ in range(10)` renormalization loop: accept the next iterate
only while the previous error is at least epsilon and strictly shrinks. -/
def glLoop : ℕ → List Frac → PyResult (List Frac)
  | 0, l => .ok l
  | fuel + 1, l =>
    match glNextWeights l with
    | .exn e => .exn e
    | .ok next =>
      if Frac.le floatInfoEpsilon (fsumError l) ∧
          Frac.lt (fsumError next) (fsumError l) then
        glLoop fuel next
      else .ok l

/-- `vrm_types.normalize_weights_compatible_with_gl_float`: return the input
unchanged when `abs(sum(weights) - 1.0) < sys.float_info.epsilon`, otherwise
round to binary32 and run up to 10 renormalization rounds. -/
def normalize_weights_compatible_with_gl_float (weights : List Frac) :
    PyResult (List Frac) :=
  if Frac.lt (Frac.abs (round64 ((pySum weights).sub (Frac.ofInt 1))))
      floatInfoEpsilon then
    .ok weights
  else glLoop 10 (to_gl_float weights)

/-! ## vrm_types.nested_json_value_getter -/

/-- A parsed Python JSON value (`None`, `bool`, number, `str`, `list`,
`dict`); dictionaries are association lists with distinct keys. -/
inductive PyJson : Type where
  | null : PyJson
  | boolean (b : Bool) : PyJson
  | num (q : Frac) : PyJson
  | str (s : String) : PyJson
  | arr (l : List PyJson) : PyJson
  | obj (entries : List (String × PyJson)) : PyJson

/-- A member of the `attrs` path: a Python `int` or `str`. -/
abbrev JsonAttr : Type := ℤ ⊕ String

/-- Python list indexing `l[i]`: negative indices count from the end,
out-of-range indices raise `IndexError`. -/
def pyListIndex (l : List PyJson) (i : ℤ) : PyResult PyJson :=
  let j : ℤ := if 0 ≤ i then i else i + l.length
  if 0 ≤ j ∧ j < l.length then .ok (l.getD j.toNat .null)
  else .exn "IndexError"

/-- Python `key in dict` / `dict[key]` on an association list. -/
def objLookup : List (String × PyJson) → String → Option PyJson
  | [], _ => none
  | (k, v) :: rest, key => if key = k then some v else objLookup rest key

/-- `vrm_types.nested_json_value_getter(json, attrs, default)`.  `None`
returns the default; `attrs.pop(0)` on an exhausted path raises
`IndexError`; the list branch is guarded by `0 < len(json) < attr`
(as written in the source); the dict branch by `attr in json`; any
fall-through returns the default. -/
def nested_json_value_getter :
    PyJson → List JsonAttr → PyJson → PyResult PyJson
  | .null, _, dflt => .ok dflt
  | _, [], _ => .exn "IndexError"
  | .arr l, .inl i :: rest, dflt =>
    if 0 < l.length ∧ (l.length : ℤ) < i then
      match pyListIndex l i with
      | .ok v =>
        if rest = [] then .ok v else nested_json_value_getter v rest dflt
      | .exn e => .exn e
    else .ok dflt
  | .obj es, .inr key :: rest, dflt =>
    match objLookup es key with
    | some v =>
      if rest = [] then .ok v else nested_json_value_getter v rest dflt
    | none => .ok dflt
  | _, _ :: _, dflt => .ok dflt

/-! ## GlbObj: the exporter

The exporter methods of `misc/glb_factory.py` are embedded one by one.
Blender-side objects (`bpy.types.Material`, bones, vertex groups) are
captured as plain records holding exactly the fields the code reads. -/

namespace GlbObj

/-- `GlbObj.axis_blender_to_glb`:
`[vec3[i] * t for i, t in zip([0, 2, 1], [-1, 1, 1])]`. -/
def axis_blender_to_glb (vec3 : List Frac) : List Frac :=
  (List.zip [0, 2, 1] [Frac.ofInt (-1), Frac.ofInt 1, Frac.ofInt 1]).map
    (fun it => (vec3.getD it.1 ⟨0, 1⟩).mul it.2)

/-- The transformation as the specification describes it: reorder the axes
as `[X, Z, Y]` and negate the new Y component (second entry). -/
def axis_spec_reorder_negate_y (vec3 : List Frac) : List Frac :=
  [vec3.getD 0 ⟨0, 1⟩,
   ⟨-(vec3.getD 2 ⟨0, 1⟩).num, (vec3.getD 2 ⟨0, 1⟩).den⟩,
   vec3.getD 1 ⟨0, 1⟩]

/-- The fields of a Blender bone read by `bone_to_node`: its name, its head
position, its parent's head position (when a parent exists) and the names
of its children. -/
structure BBone : Type where
  name : String
  head_local : List Frac
  parent_head_local : Option (List Frac)
  children : List String

/-- A produced glTF node (the `children` key is omitted from the JSON when
the list is empty; the record keeps the list itself). -/
structure GlbNode : Type where
  name : String
  translation : List Frac
  children : List ℕ

/-- `bone_to_node` (inside `armature_to_node_and_scenes_dic`): translation
is the bone head minus the parent head (componentwise binary64
subtraction), converted by `axis_blender_to_glb`; children are resolved
through `bone_id_dic`. -/
def bone_to_node (bone_id_dic : String → ℕ) (b : BBone) : GlbNode :=
  let parent_head := b.parent_head_local.getD [⟨0, 1⟩, ⟨0, 1⟩, ⟨0, 1⟩]
  { name := b.name
    translation := axis_blender_to_glb ((List.range 3).map fun i =>
      round64 ((b.head_local.getD i ⟨0, 1⟩).sub (parent_head.getD i ⟨0, 1⟩)))
    children := b.children.map bone_id_dic }

/-! ### Materials -/

/-- The fields of `bpy.types.Material` read by the opacity-mode mapping. -/
structure BMat : Type where
  name : String
  blend_method : String
  alpha_threshold : Frac
  use_backface_culling : Bool

/-- The slice of the glTF material JSON produced by `pbr_fallback` that the
claims are about (texture bookkeeping is orthogonal and omitted). -/
structure PbrDic : Type where
  name : String
  base_color : List Frac
  metallic : Frac
  roughness : Frac
  alphaMode : String
  alphaCutoff : Option Frac
  doubleSided : Bool

/-- `pbr_fallback`: `alphaMode` is the passed transparent method; only the
`"MASK"` method writes an `alphaCutoff` key (defaulting to 0.5 when the
cutoff argument is `None`). -/
def pbr_fallback (b_mat : BMat) (base_color : List Frac)
    (metalness roughness : Frac) (transparent_method : String)
    (transparency_cutoff : Option Frac) (doublesided : Bool) : PbrDic :=
  { name := b_mat.name
    base_color := base_color
    metallic := metalness
    roughness := roughness
    alphaMode := transparent_method
    alphaCutoff :=
      if transparent_method = "MASK" then
        some (transparency_cutoff.getD ⟨1, 2⟩)
      else none
    doubleSided := doublesided }

/-- The `for pbr_fallback` opacity branch of
`make_mtoon_unversioned_extension_dic`: `blend_method` `"OPAQUE"` maps to
`("OPAQUE", None)`, `"CLIP"` to `("MASK", alpha_threshold)`, anything else
to `("BLEND", None)`. -/
def mtoon_transparent_method (b_mat : BMat) : String × Option Frac :=
  if b_mat.blend_method = "OPAQUE" then ("OPAQUE", none)
  else if b_mat.blend_method = "CLIP" then ("MASK", some b_mat.alpha_threshold)
  else ("BLEND", none)

/-- The PBR entry produced for a toon-shaded material: `pbr_fallback`
applied to the derived transparent method, with metalness 0, roughness 0.9
and `doubleSided = not use_backface_culling` as in the source call. -/
def make_mtoon_pbr_dic (b_mat : BMat) (base_color : List Frac) : PbrDic :=
  pbr_fallback b_mat base_color ⟨0, 1⟩ ⟨9, 10⟩
    (mtoon_transparent_method b_mat).1 (mtoon_transparent_method b_mat).2
    (!b_mat.use_backface_culling)

/-- A used material as seen by the `material_to_dic` dispatch loop: its
name and its `"vrm_shader"` tag. -/
structure ShaderMat : Type where
  name : String
  vrm_shader : String

/-- The dispatch loop of `material_to_dic` over the used materials: the
three recognized `vrm_shader` tags are translated (the per-kind dictionary
builders are not needed by any claim and are represented by the processed
material names); any other tag raises
`Exception("VRM doesn't support \"<shader>\" shader.")` at the first
offender. -/
def material_to_dic : List ShaderMat → PyResult (List String)
  | [] => .ok []
  | m :: rest =>
    if m.vrm_shader = "MToon_unversioned" ∨ m.vrm_shader = "GLTF" ∨
        m.vrm_shader = "TRANSPARENT_ZWRITE" then
      match material_to_dic rest with
      | .ok names => .ok (m.name :: names)
      | .exn e => .exn e
    else .exn ("VRM doesn\x27t support \"" ++ m.vrm_shader ++ "\" shader.")

/-! ### Container assembly (`GlbObj.finalize`) -/

/-- `struct.pack("<I", n)`: four little-endian bytes.  (Python raises
`struct.error` on `n ≥ 2 ^ 32`; the claims only evaluate it in range,
which the theorems make explicit.) -/
def u32le (n : ℕ) : List ℕ :=
  [n % 256, n / 256 % 256, n / 65536 % 256, n / 16777216 % 256]

/-- Pad a byte string with `padByte` up to the next multiple of 4 (no
padding when already aligned), as both padding branches of `finalize` do. -/
def pad4 (padByte : ℕ) (bs : List ℕ) : List ℕ :=
  if bs.length % 4 = 0 then bs
  else bs ++ List.replicate (4 - bs.length % 4) padByte

/-- The bytes of `b"glTF"`. -/
def glbMagic : List ℕ := [0x67, 0x6C, 0x54, 0x46]

/-- The bytes of `b"JSON"`. -/
def jsonChunkTag : List ℕ := [0x4A, 0x53, 0x4F, 0x4E]

/-- The bytes of `b"BIN\x00"`. -/
def binChunkTag : List ℕ := [0x42, 0x49, 0x4E, 0x00]

/-- `GlbObj.finalize`: magic + version, total length, then the
space-padded JSON chunk and the zero-padded binary chunk, each preceded by
its 4-byte length and 4-byte tag.  The declared total is
`len(json_str) + len(self.bin) + 28`, computed after padding. -/
def finalize (json_str bin : List ℕ) : List ℕ :=
  let js := pad4 0x20 json_str
  let bn := pad4 0x00 bin
  glbMagic ++ u32le 2 ++ u32le (js.length + bn.length + 28) ++
    u32le js.length ++ jsonChunkTag ++ js ++
    u32le bn.length ++ binChunkTag ++ bn

/-- Little-endian decoding of a 4-byte field. -/
def decodeU32le (bs : List ℕ) : ℕ :=
  bs.getD 0 0 + 256 * bs.getD 1 0 + 65536 * bs.getD 2 0 +
    16777216 * bs.getD 3 0

/-- `convert_bpy2glb`, restricted to the stages the claims observe: the
material translation runs strictly before `finalize`, so a raised material
error aborts the conversion and no container bytes are ever assembled. -/
def convert_bpy2glb (materials : List ShaderMat) (json_str bin : List ℕ) :
    PyResult (List ℕ) :=
  match material_to_dic materials with
  | .exn e => .exn e
  | .ok _ => .ok (finalize json_str bin)

/-! ### Skin weight resolution (`mesh_to_bin_and_dic`, per vertex)

A vertex arrives as the list of its `(v_group.weight, joint_id)` pairs,
where `joint_id` is the value of `joint_id_from_node_name_solver` (`-1`
when the vertex group points to no known node). -/

/-- The gathering loop: pairs whose joint is unresolvable (`-1`) or whose
weight is below `float_info.epsilon` are skipped. -/
def weight_joint_filter (pairs : List (Frac × ℤ)) : List (Frac × ℤ) :=
  pairs.filter fun p =>
    decide (p.2 ≠ -1 ∧ ¬ Frac.lt p.1 floatInfoEpsilon)

/-- `while len(weight_and_joint_list) < 4: append((0.0, 0))`. -/
def pad_wj (l : List (Frac × ℤ)) : List (Frac × ℤ) :=
  l ++ List.replicate (4 - l.length) (⟨0, 1⟩, 0)

/-- Python's descending tuple order on `(weight, joint)` pairs, used by
`weight_and_joint_list.sort(reverse=True)`: `a` may precede `b` when `a`
is lexicographically at least `b`.  Weights are compared as values.  (The
order is total and antisymmetric on distinct values, so the sorted list is
the same whatever stable algorithm produces it.) -/
def wjGe (a b : Frac × ℤ) : Prop :=
  Frac.toRat b.1 < Frac.toRat a.1 ∨
    (Frac.toRat a.1 = Frac.toRat b.1 ∧ b.2 ≤ a.2)

instance : DecidableRel wjGe := fun a b => by unfold wjGe; infer_instance

instance : IsTotal (Frac × ℤ) wjGe := by
  constructor
  intro a b
  unfold wjGe
  rcases lt_trichotomy (Frac.toRat a.1) (Frac.toRat b.1) with h | h | h
  · right; left; exact h
  · rcases le_total b.2 a.2 with h2 | h2
    · left; right; exact ⟨h, h2⟩
    · right; right; exact ⟨h.symm, h2⟩
  · left; left; exact h

instance : IsTrans (Frac × ℤ) wjGe := by
  constructor
  intro a b c hab hbc
  unfold wjGe at *
  rcases hab with h1 | ⟨h1, h1j⟩ <;> rcases hbc with h2 | ⟨h2, h2j⟩
  · exact Or.inl (h2.trans h1)
  · exact Or.inl (h2 ▸ h1)
  · exact Or.inl (lt_of_lt_of_le h2 (le_of_eq h1.symm))
  · exact Or.inr ⟨h1.trans h2, h2j.trans h1j⟩

/-- The per-vertex list after gathering, padding and sorting. -/
def sorted_weight_and_joint_list (pairs : List (Frac × ℤ)) :
    List (Frac × ℤ) :=
  List.insertionSort wjGe (pad_wj (weight_joint_filter pairs))

/-- Truncation step: when more than 4 entries remain the list is cut to
its first 4 entries and the "Joints ... are truncated" warning is printed
(the boolean records whether it was). -/
def weight_and_joint_resolve (pairs : List (Frac × ℤ)) :
    List (Frac × ℤ) × Bool :=
  if 4 < (sorted_weight_and_joint_list pairs).length then
    ((sorted_weight_and_joint_list pairs).take 4, true)
  else (sorted_weight_and_joint_list pairs, false)

/-- The per-vertex weight/joint binding written to `weights_bin` and
`joints_bin`: when the resolved weights sum below epsilon, the vertex is
rebound to the `hips` node (looked up by name in the node list; Python's
`next(...)` raises `StopIteration` when absent) with weights
`[1.0, 0, 0, 0]`, printing the "No weight on vertex" diagnostic (the
boolean of the result); either way the weights then pass through
`normalize_weights_compatible_with_gl_float`. -/
def skin_vertex_binding (pairs : List (Frac × ℤ)) (node_names : List String)
    (hips_name : String) : PyResult (List Frac × List ℤ × Bool) :=
  if Frac.lt
      (pySum (((weight_and_joint_resolve pairs).1).map Prod.fst))
      floatInfoEpsilon then
    match node_names.findIdx? (fun n => n = hips_name) with
    | none => .exn "StopIteration"
    | some hips_index =>
      match normalize_weights_compatible_with_gl_float
          [⟨1, 1⟩, ⟨0, 1⟩, ⟨0, 1⟩, ⟨0, 1⟩] with
      | .ok nw => .ok (nw, [(hips_index : ℤ), 0, 0, 0], true)
      | .exn e => .exn e
  else
    match normalize_weights_compatible_with_gl_float
        (((weight_and_joint_resolve pairs).1).map Prod.fst) with
    | .ok nw =>
      .ok (nw, ((weight_and_joint_resolve pairs).1).map Prod.snd, false)
    | .exn e => .exn e

/-! ### Vertex deduplication (`mesh_to_bin_and_dic`, per corner) -/

/-- The deduplication key of one triangle corner:
`(*uv_list, *vert_normal, loop.vert.index)`. -/
structure VertexKey : Type where
  uvs : List Frac
  normal : List Frac
  vert_index : ℕ
deriving DecidableEq

/-- Lookup in the model of `unique_vertex_dic` (first match; the invariant
proofs show keys are never duplicated). -/
def alookup : List (VertexKey × ℕ) → VertexKey → Option ℕ
  | [], _ => none
  | (k, v) :: rest, key => if key = k then some v else alookup rest key

/-- The corner loop: for each key, either reuse the cached slot id or
allocate `unique_vertex_id` and record it.  Returns the final dictionary,
the final counter and the slot id assigned to each corner in order. -/
def dedup_corners :
    List VertexKey → List (VertexKey × ℕ) → ℕ →
      List (VertexKey × ℕ) × ℕ × List ℕ
  | [], dic, n => (dic, n, [])
  | k :: ks, dic, n =>
    match alookup dic k with
    | some cached =>
      let r := dedup_corners ks dic n
      (r.1, r.2.1, cached :: r.2.2)
    | none =>
      let r := dedup_corners ks (dic ++ [(k, n)]) (n + 1)
      (r.1, r.2.1, n :: r.2.2)

/-- The slot index assigned to every corner of one mesh, starting from the
empty dictionary and `unique_vertex_id = 0`. -/
def corner_slots (keys : List VertexKey) : List ℕ :=
  (dedup_corners keys [] 0).2.2

end GlbObj

/-! ## Helper lemmas -/

theorem Frac.toRat_norm (a : Frac) : (Frac.norm a).toRat = a.toRat := by
  by_cases h0 : (Int.gcd a.num a.den : ℤ) = 0
  · obtain ⟨hnum, hden⟩ := Int.gcd_eq_zero_iff.mp (by exact_mod_cast h0)
    rw [Frac.norm, if_pos h0]
    simp [Frac.toRat, hnum, hden]
  · have hdvdn : (Int.gcd a.num a.den : ℤ) ∣
        (if a.den < 0 then -1 else 1) * a.num :=
      Dvd.dvd.mul_left Int.gcd_dvd_left _
    have hdvdd : (Int.gcd a.num a.den : ℤ) ∣
        (if a.den < 0 then -1 else 1) * a.den :=
      Dvd.dvd.mul_left Int.gcd_dvd_right _
    have hsne : (if a.den < 0 then (-1 : ℚ) else 1) ≠ 0 := by
      split <;> norm_num
    rw [Frac.norm, if_neg h0, Frac.toRat]
    dsimp only
    rw [Int.cast_div_charZero hdvdn, Int.cast_div_charZero hdvdd,
      div_div_div_cancel_right₀ (by exact_mod_cast h0)]
    push_cast
    rw [mul_div_mul_left _ _ hsne]
    rfl

theorem Frac.toRat_mul_ofInt (f : Frac) (t : ℤ) :
    (f.mul (Frac.ofInt t)).toRat = (t : ℚ) * f.toRat := by
  unfold Frac.mul Frac.ofInt
  rw [Frac.toRat_norm]
  simp only [Frac.toRat]
  push_cast
  rw [mul_one, mul_comm (f.num : ℚ) (t : ℚ), mul_div_assoc]

/-! ## Claim theorems -/

/-- Claim C1: `normalize_weights_compatible_with_gl_float` returns its input
unchanged whenever `abs(sum(weights) - 1.0)` is below machine epsilon, and
on the six listed example inputs it returns exactly the listed outputs
(with ε the machine-epsilon step `2 ^ (-52)`). -/
theorem normalize_unchanged_within_epsilon_and_examples :
    (∀ weights : List Frac,
      Frac.lt (Frac.abs (round64 ((pySum weights).sub (Frac.ofInt 1))))
        floatInfoEpsilon →
      normalize_weights_compatible_with_gl_float weights = .ok weights) ∧
    normalize_weights_compatible_with_gl_float
      [⟨1, 1⟩, ⟨0, 1⟩, ⟨0, 1⟩, ⟨0, 1⟩] =
      .ok [⟨1, 1⟩, ⟨0, 1⟩, ⟨0, 1⟩, ⟨0, 1⟩] ∧
    normalize_weights_compatible_with_gl_float
      [⟨2, 1⟩, ⟨0, 1⟩, ⟨0, 1⟩, ⟨0, 1⟩] =
      .ok [⟨1, 1⟩, ⟨0, 1⟩, ⟨0, 1⟩, ⟨0, 1⟩] ∧
    normalize_weights_compatible_with_gl_float
      [⟨1, 1⟩, ⟨3, 1⟩, ⟨0, 1⟩, ⟨0, 1⟩] =
      .ok [⟨1, 4⟩, ⟨3, 4⟩, ⟨0, 1⟩, ⟨0, 1⟩] ∧
    normalize_weights_compatible_with_gl_float
      [⟨2, 1⟩, ⟨2, 1⟩, ⟨2, 1⟩, ⟨2, 1⟩] =
      .ok [⟨1, 4⟩, ⟨1, 4⟩, ⟨1, 4⟩, ⟨1, 4⟩] ∧
    normalize_weights_compatible_with_gl_float
      [⟨0, 1⟩, ⟨0, 1⟩, ⟨0, 1⟩, floatInfoEpsilon] =
      .ok [⟨0, 1⟩, ⟨0, 1⟩, ⟨0, 1⟩, ⟨1, 1⟩] ∧
    normalize_weights_compatible_with_gl_float
      [⟨0, 1⟩, floatInfoEpsilon, ⟨0, 1⟩, floatInfoEpsilon] =
      .ok [⟨0, 1⟩, ⟨1, 2⟩, ⟨0, 1⟩, ⟨1, 2⟩] := by
  refine ⟨fun w h => ?_, by decide, by decide, by decide, by decide,
    by decide, by decide⟩
  unfold normalize_weights_compatible_with_gl_float
  rw [if_pos h]

/-- Witness for C1: a concrete tuple summing exactly to 1 satisfies the
epsilon guard and is returned unchanged. -/
theorem normalize_unchanged_witness :
    Frac.lt
      (Frac.abs (round64
        ((pySum [⟨1, 2⟩, ⟨1, 2⟩, ⟨0, 1⟩, ⟨0, 1⟩]).sub (Frac.ofInt 1))))
      floatInfoEpsilon ∧
    normalize_weights_compatible_with_gl_float
      [⟨1, 2⟩, ⟨1, 2⟩, ⟨0, 1⟩, ⟨0, 1⟩] =
      .ok [⟨1, 2⟩, ⟨1, 2⟩, ⟨0, 1⟩, ⟨0, 1⟩] :=
  ⟨by decide,
    normalize_unchanged_within_epsilon_and_examples.1 _ (by decide)⟩

/-- Claim C9: on the all-zero weight tuple the renormalization step divides
by the unguarded zero sum and raises `ZeroDivisionError` instead of
returning. -/
theorem normalize_zero_weights_zero_division :
    normalize_weights_compatible_with_gl_float
      [⟨0, 1⟩, ⟨0, 1⟩, ⟨0, 1⟩, ⟨0, 1⟩] = .exn "ZeroDivisionError" := by
  decide

/-- Claim C10: the list branch of `nested_json_value_getter` is guarded by
`0 < len(json) < attr`, so every in-range index on a non-empty list falls
through to the default value, while an index strictly greater than the
length passes the guard and raises `IndexError` on the actual access. -/
theorem nested_json_value_getter_guard :
    (∀ (l : List PyJson) (i : ℤ) (rest : List JsonAttr) (dflt : PyJson),
      l ≠ [] → 0 ≤ i → i < (l.length : ℤ) →
      nested_json_value_getter (.arr l) (.inl i :: rest) dflt = .ok dflt) ∧
    nested_json_value_getter (.arr [.num ⟨1, 1⟩]) [.inl 2] .null =
      .exn "IndexError" := by
  constructor
  · intro l i rest dflt _ _ hlt
    show (if 0 < l.length ∧ (l.length : ℤ) < i then _ else _) = _
    rw [if_neg]
    intro hc
    omega
  · rfl

/-- Witness for C10: the in-range branch applied to a concrete one-element
list and index 0. -/
theorem nested_json_value_getter_guard_witness :
    nested_json_value_getter (.arr [.num ⟨7, 1⟩]) [.inl 0] (.str "d") =
      .ok (.str "d") :=
  nested_json_value_getter_guard.1 [.num ⟨7, 1⟩] 0 [] (.str "d")
    (by simp) (by omega) (by simp)

/-- Claim C4: the opacity-mode mapping of a toon-shaded material: `OPAQUE`
blend method gives `alphaMode "OPAQUE"` and no cutoff, `CLIP` gives
`"MASK"` with the material's alpha threshold, and any other blend method
gives `"BLEND"` and no cutoff. -/
theorem mtoon_opacity_mode_mapping (m : GlbObj.BMat) (bc : List Frac) :
    (m.blend_method = "OPAQUE" →
      (GlbObj.make_mtoon_pbr_dic m bc).alphaMode = "OPAQUE" ∧
      (GlbObj.make_mtoon_pbr_dic m bc).alphaCutoff = none) ∧
    (m.blend_method = "CLIP" →
      (GlbObj.make_mtoon_pbr_dic m bc).alphaMode = "MASK" ∧
      (GlbObj.make_mtoon_pbr_dic m bc).alphaCutoff =
        some m.alpha_threshold) ∧
    (m.blend_method ≠ "OPAQUE" → m.blend_method ≠ "CLIP" →
      (GlbObj.make_mtoon_pbr_dic m bc).alphaMode = "BLEND" ∧
      (GlbObj.make_mtoon_pbr_dic m bc).alphaCutoff = none) := by
  refine ⟨fun h => ?_, fun h => ?_, fun h1 h2 => ?_⟩
  · have hm : GlbObj.mtoon_transparent_method m = ("OPAQUE", none) := by
      rw [GlbObj.mtoon_transparent_method, if_pos h]
    simp [GlbObj.make_mtoon_pbr_dic, GlbObj.pbr_fallback, hm]
  · have hno : m.blend_method ≠ "OPAQUE" := by rw [h]; decide
    have hm : GlbObj.mtoon_transparent_method m =
        ("MASK", some m.alpha_threshold) := by
      rw [GlbObj.mtoon_transparent_method, if_neg hno, if_pos h]
    simp [GlbObj.make_mtoon_pbr_dic, GlbObj.pbr_fallback, hm]
  · have hm : GlbObj.mtoon_transparent_method m = ("BLEND", none) := by
      rw [GlbObj.mtoon_transparent_method, if_neg h1, if_neg h2]
    simp [GlbObj.make_mtoon_pbr_dic, GlbObj.pbr_fallback, hm]

/-- Witness for C4: a concrete CLIP material carries `MASK` and its own
threshold as cutoff; a concrete OPAQUE material carries no cutoff. -/
theorem mtoon_opacity_mode_mapping_witness :
    ((GlbObj.make_mtoon_pbr_dic ⟨"a", "CLIP", ⟨1, 4⟩, false⟩ []).alphaMode =
        "MASK" ∧
      (GlbObj.make_mtoon_pbr_dic ⟨"a", "CLIP", ⟨1, 4⟩, false⟩
          []).alphaCutoff = some ⟨1, 4⟩) ∧
    ((GlbObj.make_mtoon_pbr_dic ⟨"b", "OPAQUE", ⟨1, 4⟩, true⟩ []).alphaMode =
        "OPAQUE" ∧
      (GlbObj.make_mtoon_pbr_dic ⟨"b", "OPAQUE", ⟨1, 4⟩, true⟩
          []).alphaCutoff = none) :=
  ⟨(mtoon_opacity_mode_mapping ⟨"a", "CLIP", ⟨1, 4⟩, false⟩ []).2.1 rfl,
    (mtoon_opacity_mode_mapping ⟨"b", "OPAQUE", ⟨1, 4⟩, true⟩ []).1 rfl⟩

/-- Counterexample to claim C3: on the vector `[1, 2, 3]` the code's
conversion produces `[-1, 3, 2]` — the axes are reordered `[X, Z, Y]` but
the sign flip lands on the new X component, not on the new Y component
`[1, -3, 2]` that the claim describes. -/
theorem axis_blender_to_glb_counterexample :
    (GlbObj.axis_blender_to_glb [⟨1, 1⟩, ⟨2, 1⟩, ⟨3, 1⟩]).map Frac.toRat =
      [-1, 3, 2] ∧
    (GlbObj.axis_spec_reorder_negate_y
        [⟨1, 1⟩, ⟨2, 1⟩, ⟨3, 1⟩]).map Frac.toRat = [1, -3, 2] ∧
    ([-1, 3, 2] : List ℚ) ≠ [1, -3, 2] := by
  have h1 : GlbObj.axis_blender_to_glb [⟨1, 1⟩, ⟨2, 1⟩, ⟨3, 1⟩] =
      [⟨-1, 1⟩, ⟨3, 1⟩, ⟨2, 1⟩] := by decide
  have h2 : GlbObj.axis_spec_reorder_negate_y [⟨1, 1⟩, ⟨2, 1⟩, ⟨3, 1⟩] =
      [⟨1, 1⟩, ⟨-3, 1⟩, ⟨2, 1⟩] := by decide
  refine ⟨?_, ?_, ?_⟩
  · rw [h1]; simp [Frac.toRat]
  · rw [h2]; simp [Frac.toRat]
  · intro h
    have := List.head_eq_of_cons_eq h
    norm_num at this

/-- Claim C3 as amended: the conversion reorders the source axes as
`[X, Z, Y]` and negates the new X component (value-wise `[-x, z, y]`);
a node's translation is this conversion applied to the bone head minus
the parent head (componentwise binary64 subtraction). -/
theorem axis_blender_to_glb_amended :
    (∀ x y z : Frac,
      (GlbObj.axis_blender_to_glb [x, y, z]).map Frac.toRat =
        [-(Frac.toRat x), Frac.toRat z, Frac.toRat y]) ∧
    (∀ (dic : String → ℕ) (b : GlbObj.BBone) (ph : List Frac),
      b.parent_head_local = some ph →
      (GlbObj.bone_to_node dic b).translation =
        GlbObj.axis_blender_to_glb ((List.range 3).map fun i =>
          round64 ((b.head_local.getD i ⟨0, 1⟩).sub
            (ph.getD i ⟨0, 1⟩)))) := by
  constructor
  · intro x y z
    show [(x.mul (Frac.ofInt (-1))).toRat, (z.mul (Frac.ofInt 1)).toRat,
        (y.mul (Frac.ofInt 1)).toRat] = _
    rw [Frac.toRat_mul_ofInt, Frac.toRat_mul_ofInt, Frac.toRat_mul_ofInt]
    push_cast
    rw [one_mul, one_mul, neg_one_mul]
  · intro dic b ph hp
    rw [GlbObj.bone_to_node, hp]
    rfl

/-- Witness for C3's amended theorem at a concrete bone. -/
theorem axis_blender_to_glb_amended_witness :
    (GlbObj.axis_blender_to_glb
        [⟨5, 1⟩, ⟨6, 1⟩, ⟨7, 1⟩]).map Frac.toRat =
      [-(Frac.toRat ⟨5, 1⟩), Frac.toRat ⟨7, 1⟩, Frac.toRat ⟨6, 1⟩] ∧
    (GlbObj.bone_to_node (fun _ => 0)
        ⟨"b", [⟨1, 1⟩, ⟨2, 1⟩, ⟨3, 1⟩], some [⟨0, 1⟩, ⟨0, 1⟩, ⟨1, 1⟩],
          []⟩).translation =
      GlbObj.axis_blender_to_glb ((List.range 3).map fun i =>
        round64 (((
          [⟨1, 1⟩, ⟨2, 1⟩, ⟨3, 1⟩] : List Frac).getD i ⟨0, 1⟩).sub
          (([⟨0, 1⟩, ⟨0, 1⟩, ⟨1, 1⟩] : List Frac).getD i ⟨0, 1⟩))) :=
  ⟨axis_blender_to_glb_amended.1 ⟨5, 1⟩ ⟨6, 1⟩ ⟨7, 1⟩,
    axis_blender_to_glb_amended.2 (fun _ => 0)
      ⟨"b", [⟨1, 1⟩, ⟨2, 1⟩, ⟨3, 1⟩], some [⟨0, 1⟩, ⟨0, 1⟩, ⟨1, 1⟩], []⟩
      [⟨0, 1⟩, ⟨0, 1⟩, ⟨1, 1⟩] rfl⟩

/-- Claim C2: `finalize` pads the JSON chunk with spaces and the binary
chunk with zero bytes, each to a multiple of 4; the output is the
magic/version/total-length header followed by the two tagged chunks; its
byte length is padded-JSON + padded-binary + 28; and the declared 4-byte
total-length field decodes to exactly that length (whenever it fits the
field, which Python's `struct.pack` enforces). -/
theorem finalize_layout (json_str bin : List ℕ) :
    (GlbObj.pad4 0x20 json_str).length % 4 = 0 ∧
    (GlbObj.pad4 0x00 bin).length % 4 = 0 ∧
    GlbObj.pad4 0x20 json_str =
      json_str ++ List.replicate ((4 - json_str.length % 4) % 4) 0x20 ∧
    GlbObj.pad4 0x00 bin =
      bin ++ List.replicate ((4 - bin.length % 4) % 4) 0x00 ∧
    GlbObj.finalize json_str bin =
      GlbObj.glbMagic ++ GlbObj.u32le 2 ++
        GlbObj.u32le ((GlbObj.pad4 0x20 json_str).length +
          (GlbObj.pad4 0x00 bin).length + 28) ++
        GlbObj.u32le (GlbObj.pad4 0x20 json_str).length ++
        GlbObj.jsonChunkTag ++ GlbObj.pad4 0x20 json_str ++
        GlbObj.u32le (GlbObj.pad4 0x00 bin).length ++
        GlbObj.binChunkTag ++ GlbObj.pad4 0x00 bin ∧
    (GlbObj.finalize json_str bin).length =
      (GlbObj.pad4 0x20 json_str).length +
        (GlbObj.pad4 0x00 bin).length + 28 ∧
    ((GlbObj.pad4 0x20 json_str).length +
        (GlbObj.pad4 0x00 bin).length + 28 < 2 ^ 32 →
      GlbObj.decodeU32le (GlbObj.u32le
          ((GlbObj.pad4 0x20 json_str).length +
            (GlbObj.pad4 0x00 bin).length + 28)) =
        (GlbObj.finalize json_str bin).length) := by
  have hpadlen : ∀ (p : ℕ) (bs : List ℕ), (GlbObj.pad4 p bs).length % 4 = 0 := by
    intro p bs
    rw [GlbObj.pad4]
    split
    · assumption
    · rw [List.length_append, List.length_replicate]
      omega
  have hpadeq : ∀ (p : ℕ) (bs : List ℕ),
      GlbObj.pad4 p bs =
        bs ++ List.replicate ((4 - bs.length % 4) % 4) p := by
    intro p bs
    rw [GlbObj.pad4]
    split
    · rw [show (4 - bs.length % 4) % 4 = 0 by omega]
      simp
    · congr 1
      congr 1
      omega
  have hlen : (GlbObj.finalize json_str bin).length =
      (GlbObj.pad4 0x20 json_str).length +
        (GlbObj.pad4 0x00 bin).length + 28 := by
    rw [GlbObj.finalize]
    simp only [List.length_append,
      show ∀ n, (GlbObj.u32le n).length = 4 from fun _ => rfl,
      show GlbObj.glbMagic.length = 4 from rfl,
      show GlbObj.jsonChunkTag.length = 4 from rfl,
      show GlbObj.binChunkTag.length = 4 from rfl]
    omega
  refine ⟨hpadlen _ _, hpadlen _ _, hpadeq _ _, hpadeq _ _, rfl, hlen, ?_⟩
  intro hfit
  rw [hlen, GlbObj.u32le, GlbObj.decodeU32le]
  simp only [List.getD]
  norm_num
  omega

/-- Witness for C2 at empty JSON and binary payloads: the declared total
length decodes to the actual 28-byte output length. -/
theorem finalize_layout_witness :
    GlbObj.decodeU32le (GlbObj.u32le
        ((GlbObj.pad4 0x20 []).length + (GlbObj.pad4 0x00 []).length + 28)) =
      (GlbObj.finalize [] []).length :=
  (finalize_layout [] []).2.2.2.2.2.2 (by decide)

/-- The material dispatch loop raises at the first material whose
`vrm_shader` tag is not one of the three supported kinds. -/
theorem material_to_dic_unsupported (mats : List GlbObj.ShaderMat)
    (h : ∃ m ∈ mats, m.vrm_shader ≠ "MToon_unversioned" ∧
      m.vrm_shader ≠ "GLTF" ∧ m.vrm_shader ≠ "TRANSPARENT_ZWRITE") :
    ∃ bad ∈ mats,
      bad.vrm_shader ≠ "MToon_unversioned" ∧ bad.vrm_shader ≠ "GLTF" ∧
      bad.vrm_shader ≠ "TRANSPARENT_ZWRITE" ∧
      GlbObj.material_to_dic mats =
        .exn ("VRM doesn\x27t support \"" ++ bad.vrm_shader ++
          "\" shader.") := by
  induction mats with
  | nil => simp at h
  | cons m rest ih =>
    by_cases hsup : m.vrm_shader = "MToon_unversioned" ∨
        m.vrm_shader = "GLTF" ∨ m.vrm_shader = "TRANSPARENT_ZWRITE"
    · obtain ⟨bad, hmem, hbad⟩ := h
      rcases List.mem_cons.mp hmem with heq | hmemr
      · exfalso
        rw [heq] at hbad
        rcases hsup with hs | hs | hs
        · exact hbad.1 hs
        · exact hbad.2.1 hs
        · exact hbad.2.2 hs
      · obtain ⟨bad2, hmem2, h1, h2, h3, hdic⟩ := ih ⟨bad, hmemr, hbad⟩
        refine ⟨bad2, List.mem_cons_of_mem _ hmem2, h1, h2, h3, ?_⟩
        rw [GlbObj.material_to_dic, if_pos hsup, hdic]
    · refine ⟨m, List.mem_cons_self _ _, ?_, ?_, ?_, ?_⟩
      · intro hc; exact hsup (Or.inl hc)
      · intro hc; exact hsup (Or.inr (Or.inl hc))
      · intro hc; exact hsup (Or.inr (Or.inr hc))
      · rw [GlbObj.material_to_dic, if_neg hsup]

/-- Claim C8: whenever some used material carries an unrecognized shader
kind, the conversion raises an error naming the offending shader during
material translation, so `convert_bpy2glb` never reaches `finalize` and no
container bytes are produced. -/
theorem unsupported_shader_aborts_conversion (mats : List GlbObj.ShaderMat)
    (json_str bin : List ℕ)
    (h : ∃ m ∈ mats, m.vrm_shader ≠ "MToon_unversioned" ∧
      m.vrm_shader ≠ "GLTF" ∧ m.vrm_shader ≠ "TRANSPARENT_ZWRITE") :
    ∃ bad ∈ mats,
      GlbObj.material_to_dic mats =
        .exn ("VRM doesn\x27t support \"" ++ bad.vrm_shader ++
          "\" shader.") ∧
      GlbObj.convert_bpy2glb mats json_str bin =
        .exn ("VRM doesn\x27t support \"" ++ bad.vrm_shader ++
          "\" shader.") ∧
      ∀ out : List ℕ, GlbObj.convert_bpy2glb mats json_str bin ≠ .ok out := by
  obtain ⟨bad, hmem, _, _, _, hdic⟩ := material_to_dic_unsupported mats h
  refine ⟨bad, hmem, hdic, ?_, ?_⟩
  · rw [GlbObj.convert_bpy2glb, hdic]
  · intro out hc
    rw [GlbObj.convert_bpy2glb, hdic] at hc
    exact PyResult.noConfusion hc

/-- Witness for C8: a concrete material list with an unknown shader tag
aborts the conversion. -/
theorem unsupported_shader_aborts_conversion_witness :
    ∃ bad ∈ [(⟨"m1", "MToon_unversioned"⟩ : GlbObj.ShaderMat),
        ⟨"m2", "PrincipledBSDF"⟩],
      GlbObj.material_to_dic
          [⟨"m1", "MToon_unversioned"⟩, ⟨"m2", "PrincipledBSDF"⟩] =
        .exn ("VRM doesn\x27t support \"" ++ bad.vrm_shader ++
          "\" shader.") ∧
      GlbObj.convert_bpy2glb
          [⟨"m1", "MToon_unversioned"⟩, ⟨"m2", "PrincipledBSDF"⟩] [] [] =
        .exn ("VRM doesn\x27t support \"" ++ bad.vrm_shader ++
          "\" shader.") ∧
      ∀ out : List ℕ,
        GlbObj.convert_bpy2glb
            [⟨"m1", "MToon_unversioned"⟩, ⟨"m2", "PrincipledBSDF"⟩] [] [] ≠
          .ok out :=
  unsupported_shader_aborts_conversion _ [] []
    ⟨⟨"m2", "PrincipledBSDF"⟩, by simp, by decide, by decide, by decide⟩

/-- The sorted list of a concrete five-pair vertex, used by the C6
witness. -/
theorem sorted_weight_and_joint_list_concrete :
    GlbObj.sorted_weight_and_joint_list
      [(⟨1, 1⟩, 1), (⟨2, 1⟩, 2), (⟨3, 1⟩, 3), (⟨4, 1⟩, 4), (⟨5, 1⟩, 5)] =
      [(⟨5, 1⟩, 5), (⟨4, 1⟩, 4), (⟨3, 1⟩, 3), (⟨2, 1⟩, 2), (⟨1, 1⟩, 1)] := by
  norm_num [GlbObj.sorted_weight_and_joint_list, GlbObj.pad_wj,
    GlbObj.weight_joint_filter, List.insertionSort, List.orderedInsert,
    GlbObj.wjGe, Frac.toRat, Frac.lt, floatInfoEpsilon, List.filter]

/-- Claim C6: the per-vertex `(weight, joint)` list, after dropping
unresolvable or sub-epsilon pairs, is padded with `(0, 0)` to length 4,
sorted descending and truncated to its 4 highest entries (with the warning
exactly when more than 4 filtered entries remain), so the exported binding
always holds exactly 4 components, in descending weight order, and every
retained weight is at least every discarded one. -/
theorem skin_weights_pad_sort_truncate (pairs : List (Frac × ℤ)) :
    ((GlbObj.weight_and_joint_resolve pairs).1).length = 4 ∧
    (GlbObj.weight_and_joint_resolve pairs).1 =
      (GlbObj.sorted_weight_and_joint_list pairs).take 4 ∧
    List.Chain' (fun a b : Frac × ℤ => Frac.toRat b.1 ≤ Frac.toRat a.1)
      ((GlbObj.weight_and_joint_resolve pairs).1) ∧
    (∀ a ∈ (GlbObj.weight_and_joint_resolve pairs).1,
      ∀ b ∈ (GlbObj.sorted_weight_and_joint_list pairs).drop 4,
        Frac.toRat b.1 ≤ Frac.toRat a.1) ∧
    ((GlbObj.weight_and_joint_resolve pairs).2 = true ↔
      4 < (GlbObj.weight_joint_filter pairs).length) := by
  have hlenL : (GlbObj.sorted_weight_and_joint_list pairs).length =
      (GlbObj.pad_wj (GlbObj.weight_joint_filter pairs)).length :=
    List.length_insertionSort _ _
  have hpad : (GlbObj.pad_wj (GlbObj.weight_joint_filter pairs)).length =
      (GlbObj.weight_joint_filter pairs).length +
        (4 - (GlbObj.weight_joint_filter pairs).length) := by
    rw [GlbObj.pad_wj, List.length_append, List.length_replicate]
  have hres : (GlbObj.weight_and_joint_resolve pairs).1 =
      (GlbObj.sorted_weight_and_joint_list pairs).take 4 := by
    rw [GlbObj.weight_and_joint_resolve]
    split
    · rfl
    · next h => rw [List.take_of_length_le (by omega)]
  have hlen4 : ((GlbObj.weight_and_joint_resolve pairs).1).length = 4 := by
    rw [hres, List.length_take]
    omega
  have hp : List.Pairwise GlbObj.wjGe
      (GlbObj.sorted_weight_and_joint_list pairs) :=
    List.sorted_insertionSort GlbObj.wjGe _
  have hweaken : ∀ a b : Frac × ℤ, GlbObj.wjGe a b →
      Frac.toRat b.1 ≤ Frac.toRat a.1 := by
    intro a b hab
    rcases hab with h | ⟨h, _⟩
    · exact le_of_lt h
    · exact le_of_eq h.symm
  refine ⟨hlen4, hres, ?_, ?_, ?_⟩
  · rw [hres]
    exact List.Chain'.imp (fun a b => hweaken a b)
      (hp.sublist (List.take_sublist _ _)).chain'
  · rw [hres]
    have hp2 : List.Pairwise GlbObj.wjGe
        ((GlbObj.sorted_weight_and_joint_list pairs).take 4 ++
          (GlbObj.sorted_weight_and_joint_list pairs).drop 4) := by
      rw [List.take_append_drop]
      exact hp
    intro a ha b hb
    exact hweaken a b ((List.pairwise_append.mp hp2).2.2 a ha b hb)
  · rw [GlbObj.weight_and_joint_resolve]
    split
    · next h =>
      simp only [true_iff]
      omega
    · next h =>
      simp only [Bool.false_eq_true, false_iff]
      omega

/-- Witness for C6 at a five-pair vertex: exactly 4 components survive, a
discarded weight is at most a retained one, and the truncation warning
fires. -/
theorem skin_weights_pad_sort_truncate_witness :
    ((GlbObj.weight_and_joint_resolve
        [(⟨1, 1⟩, 1), (⟨2, 1⟩, 2), (⟨3, 1⟩, 3), (⟨4, 1⟩, 4),
          (⟨5, 1⟩, 5)]).1).length = 4 ∧
    Frac.toRat ⟨1, 1⟩ ≤ Frac.toRat ⟨5, 1⟩ ∧
    (GlbObj.weight_and_joint_resolve
        [(⟨1, 1⟩, 1), (⟨2, 1⟩, 2), (⟨3, 1⟩, 3), (⟨4, 1⟩, 4),
          (⟨5, 1⟩, 5)]).2 = true := by
  have h := skin_weights_pad_sort_truncate
    [(⟨1, 1⟩, 1), (⟨2, 1⟩, 2), (⟨3, 1⟩, 3), (⟨4, 1⟩, 4), (⟨5, 1⟩, 5)]
  refine ⟨h.1, ?_, ?_⟩
  · refine h.2.2.2.1 (⟨5, 1⟩, 5) ?_ (⟨1, 1⟩, 1) ?_
    · rw [h.2.1, sorted_weight_and_joint_list_concrete]
      simp
    · rw [sorted_weight_and_joint_list_concrete]
      simp
  · refine h.2.2.2.2.mpr ?_
    norm_num [GlbObj.weight_joint_filter, Frac.lt, floatInfoEpsilon,
      List.filter]

/-- Claim C5: a vertex all of whose gathered pairs carry weights below
machine epsilon keeps no pair after filtering, so its resolved weights sum
below epsilon and it is rebound to the `hips` node with weight vector
`[1, 0, 0, 0]`; the diagnostic fires and the binding is returned normally
(no exception). -/
theorem zero_weight_vertex_rebound (pairs : List (Frac × ℤ))
    (node_names : List String) (hips_name : String) (idx : ℕ)
    (hall : ∀ p ∈ pairs, Frac.lt p.1 floatInfoEpsilon)
    (hidx : node_names.findIdx? (fun n => n = hips_name) = some idx) :
    GlbObj.skin_vertex_binding pairs node_names hips_name =
      .ok ([⟨1, 1⟩, ⟨0, 1⟩, ⟨0, 1⟩, ⟨0, 1⟩], [(idx : ℤ), 0, 0, 0], true) := by
  have hfil : GlbObj.weight_joint_filter pairs = [] := by
    rw [GlbObj.weight_joint_filter, List.filter_eq_nil_iff]
    intro p hp
    simp [hall p hp]
  have hsorted : GlbObj.sorted_weight_and_joint_list pairs =
      [(⟨0, 1⟩, 0), (⟨0, 1⟩, 0), (⟨0, 1⟩, 0), (⟨0, 1⟩, 0)] := by
    rw [GlbObj.sorted_weight_and_joint_list, hfil]
    norm_num [GlbObj.pad_wj, List.insertionSort, List.orderedInsert,
      GlbObj.wjGe, Frac.toRat]
  have hres : (GlbObj.weight_and_joint_resolve pairs).1 =
      [(⟨0, 1⟩, 0), (⟨0, 1⟩, 0), (⟨0, 1⟩, 0), (⟨0, 1⟩, 0)] := by
    rw [GlbObj.weight_and_joint_resolve, hsorted]
    norm_num
  rw [GlbObj.skin_vertex_binding, hres]
  rw [if_pos (by decide), hidx]
  rw [show normalize_weights_compatible_with_gl_float
      [⟨1, 1⟩, ⟨0, 1⟩, ⟨0, 1⟩, ⟨0, 1⟩] =
      .ok [⟨1, 1⟩, ⟨0, 1⟩, ⟨0, 1⟩, ⟨0, 1⟩] from by decide]

/-- Witness for C5: a concrete vertex whose only weight is far below
epsilon is rebound to the hips node (index 1) with weight `[1, 0, 0, 0]`. -/
theorem zero_weight_vertex_rebound_witness :
    GlbObj.skin_vertex_binding [(⟨1, 2 ^ 60⟩, 3)] ["root", "hips_bone"]
        "hips_bone" =
      .ok ([⟨1, 1⟩, ⟨0, 1⟩, ⟨0, 1⟩, ⟨0, 1⟩], [(1 : ℤ), 0, 0, 0], true) :=
  zero_weight_vertex_rebound [(⟨1, 2 ^ 60⟩, 3)] ["root", "hips_bone"]
    "hips_bone" 1 (by decide) (by decide)

theorem GlbObj.alookup_append_of_some {d : List (GlbObj.VertexKey × ℕ)}
    {k : GlbObj.VertexKey} {v : ℕ} (e : List (GlbObj.VertexKey × ℕ))
    (h : GlbObj.alookup d k = some v) :
    GlbObj.alookup (d ++ e) k = some v := by
  induction d with
  | nil => simp [GlbObj.alookup] at h
  | cons p rest ih =>
    rw [GlbObj.alookup] at h
    rw [List.cons_append, GlbObj.alookup]
    split at h
    · rw [if_pos (by assumption)]
      exact h
    · rw [if_neg (by assumption)]
      exact ih h

theorem GlbObj.alookup_append_of_none {d : List (GlbObj.VertexKey × ℕ)}
    {k : GlbObj.VertexKey} (e : List (GlbObj.VertexKey × ℕ))
    (h : GlbObj.alookup d k = none) :
    GlbObj.alookup (d ++ e) k = GlbObj.alookup e k := by
  induction d with
  | nil => simp
  | cons p rest ih =>
    rw [GlbObj.alookup] at h
    rw [List.cons_append, GlbObj.alookup]
    split at h
    · exact absurd h (by simp)
    · rw [if_neg (by assumption)]
      exact ih h

theorem GlbObj.alookup_none_not_mem {d : List (GlbObj.VertexKey × ℕ)}
    {k : GlbObj.VertexKey} (h : GlbObj.alookup d k = none) :
    k ∉ d.map Prod.fst := by
  induction d with
  | nil => simp
  | cons p rest ih =>
    rw [GlbObj.alookup] at h
    split at h
    · exact absurd h (by simp)
    · next hne =>
      simp only [List.map_cons, List.mem_cons]
      rintro (hk | hk)
      · exact hne hk
      · exact ih h hk

theorem GlbObj.alookup_mem {d : List (GlbObj.VertexKey × ℕ)}
    {k : GlbObj.VertexKey} {v : ℕ} (h : GlbObj.alookup d k = some v) :
    (k, v) ∈ d := by
  induction d with
  | nil => simp [GlbObj.alookup] at h
  | cons p rest ih =>
    rw [GlbObj.alookup] at h
    split at h
    · next heq =>
      have hv : v = p.2 := (Option.some.inj h).symm
      rw [List.mem_cons, heq, hv]
      exact Or.inl Prod.mk.eta
    · exact List.mem_cons_of_mem _ (ih h)

/-- Invariant of the corner-deduplication loop: starting from a dictionary
with distinct keys, distinct slot ids all below the counter, the loop only
appends entries, preserves both distinctness properties and the counter
bound, and assigns to every processed corner exactly the slot id its key
has in the final dictionary. -/
theorem GlbObj.dedup_corners_spec (ks : List GlbObj.VertexKey) :
    ∀ (dic : List (GlbObj.VertexKey × ℕ)) (n : ℕ),
      (∀ p ∈ dic, p.2 < n) →
      (dic.map Prod.fst).Nodup →
      (dic.map Prod.snd).Nodup →
      (∃ ext, (GlbObj.dedup_corners ks dic n).1 = dic ++ ext) ∧
      (∀ p ∈ (GlbObj.dedup_corners ks dic n).1,
        p.2 < (GlbObj.dedup_corners ks dic n).2.1) ∧
      ((GlbObj.dedup_corners ks dic n).1.map Prod.fst).Nodup ∧
      ((GlbObj.dedup_corners ks dic n).1.map Prod.snd).Nodup ∧
      List.Forall₂
        (fun k i => GlbObj.alookup (GlbObj.dedup_corners ks dic n).1 k =
          some i)
        ks (GlbObj.dedup_corners ks dic n).2.2 := by
  induction ks with
  | nil =>
    intro dic n hbound hnk hni
    exact ⟨⟨[], by simp [GlbObj.dedup_corners]⟩, hbound, hnk, hni,
      List.Forall₂.nil⟩
  | cons k ks ih =>
    intro dic n hbound hnk hni
    cases hlk : GlbObj.alookup dic k with
    | some cached =>
      obtain ⟨⟨ext, hext⟩, hb, hk2, hi2, hfa⟩ := ih dic n hbound hnk hni
      refine ⟨⟨ext, ?_⟩, ?_, ?_, ?_, ?_⟩ <;>
        simp only [GlbObj.dedup_corners, hlk]
      · exact hext
      · exact hb
      · exact hk2
      · exact hi2
      · refine List.Forall₂.cons ?_ hfa
        rw [hext]
        exact GlbObj.alookup_append_of_some ext hlk
    | none =>
      have hknot : k ∉ dic.map Prod.fst := GlbObj.alookup_none_not_mem hlk
      have hbound2 : ∀ p ∈ dic ++ [(k, n)], p.2 < n + 1 := by
        intro p hp
        rcases List.mem_append.mp hp with hp | hp
        · exact Nat.lt_succ_of_lt (hbound p hp)
        · simp at hp
          rw [hp]
          exact Nat.lt_succ_self n
      have hnk2 : ((dic ++ [(k, n)]).map Prod.fst).Nodup := by
        rw [List.map_append]
        refine List.Nodup.append hnk (by simp) ?_
        intro a ha hb
        simp at hb
        rw [hb] at ha
        exact hknot ha
      have hni2 : ((dic ++ [(k, n)]).map Prod.snd).Nodup := by
        rw [List.map_append]
        refine List.Nodup.append hni (by simp) ?_
        intro a ha hb
        simp at hb
        rw [hb] at ha
        obtain ⟨p, hp, hpn⟩ := List.mem_map.mp ha
        have := hbound p hp
        omega
      obtain ⟨⟨ext, hext⟩, hb, hk2, hi2, hfa⟩ :=
        ih (dic ++ [(k, n)]) (n + 1) hbound2 hnk2 hni2
      refine ⟨⟨(k, n) :: ext, ?_⟩, ?_, ?_, ?_, ?_⟩ <;>
        simp only [GlbObj.dedup_corners, hlk]
      · rw [hext, List.append_assoc]
        rfl
      · exact hb
      · exact hk2
      · exact hi2
      · refine List.Forall₂.cons ?_ hfa
        rw [hext]
        refine GlbObj.alookup_append_of_some ext ?_
        rw [GlbObj.alookup_append_of_none [(k, n)] hlk]
        simp [GlbObj.alookup]

/-- Claim C7: two corners of one mesh receive the same exported vertex
slot exactly when their deduplication keys (UV coordinates, normal, source
vertex index) coincide — whatever the corner order, equal keys share one
slot and distinct keys get distinct slots. -/
theorem corner_dedup_same_key_iff_same_slot (keys : List GlbObj.VertexKey)
    (i j : ℕ) (hi : i < keys.length) (hj : j < keys.length) :
    (GlbObj.corner_slots keys).getD i 0 =
        (GlbObj.corner_slots keys).getD j 0 ↔
      keys.getD i ⟨[], [], 0⟩ = keys.getD j ⟨[], [], 0⟩ := by
  obtain ⟨⟨ext, hext⟩, hb, hk2, hi2, hfa⟩ :=
    GlbObj.dedup_corners_spec keys [] 0 (by simp) (by simp) (by simp)
  have hlen : keys.length = (GlbObj.corner_slots keys).length :=
    hfa.length_eq
  rw [GlbObj.corner_slots] at hlen
  have hget := (List.forall₂_iff_get.mp hfa).2
  have hgi := hget i hi (by omega)
  have hgj := hget j hj (by omega)
  simp only [List.get_eq_getElem] at hgi hgj
  rw [GlbObj.corner_slots, List.getD_eq_getElem _ _ (by omega),
    List.getD_eq_getElem _ _ (by omega), List.getD_eq_getElem _ _ hi,
    List.getD_eq_getElem _ _ hj]
  constructor
  · intro h
    have h1 := GlbObj.alookup_mem hgi
    have h2 := GlbObj.alookup_mem hgj
    rw [h] at h1
    have := List.inj_on_of_nodup_map hi2 h1 h2 rfl
    exact congrArg Prod.fst this
  · intro h
    rw [h] at hgi
    rw [hgi] at hgj
    exact Option.some.inj hgj

/-- Witness for C7: with corners `[k, k2, k]` (where `k` and `k2` differ
only in the source vertex index) the first and third corner share a slot
and the first and second do not. -/
theorem corner_dedup_same_key_iff_same_slot_witness :
    (GlbObj.corner_slots
        [⟨[⟨0, 1⟩, ⟨1, 2⟩], [⟨0, 1⟩, ⟨0, 1⟩, ⟨1, 1⟩], 0⟩,
          ⟨[⟨0, 1⟩, ⟨1, 2⟩], [⟨0, 1⟩, ⟨0, 1⟩, ⟨1, 1⟩], 1⟩,
          ⟨[⟨0, 1⟩, ⟨1, 2⟩], [⟨0, 1⟩, ⟨0, 1⟩, ⟨1, 1⟩], 0⟩]).getD 0 0 =
      (GlbObj.corner_slots
        [⟨[⟨0, 1⟩, ⟨1, 2⟩], [⟨0, 1⟩, ⟨0, 1⟩, ⟨1, 1⟩], 0⟩,
          ⟨[⟨0, 1⟩, ⟨1, 2⟩], [⟨0, 1⟩, ⟨0, 1⟩, ⟨1, 1⟩], 1⟩,
          ⟨[⟨0, 1⟩, ⟨1, 2⟩], [⟨0, 1⟩, ⟨0, 1⟩, ⟨1, 1⟩], 0⟩]).getD 2 0 ∧
    (GlbObj.corner_slots
        [⟨[⟨0, 1⟩, ⟨1, 2⟩], [⟨0, 1⟩, ⟨0, 1⟩, ⟨1, 1⟩], 0⟩,
          ⟨[⟨0, 1⟩, ⟨1, 2⟩], [⟨0, 1⟩, ⟨0, 1⟩, ⟨1, 1⟩], 1⟩,
          ⟨[⟨0, 1⟩, ⟨1, 2⟩], [⟨0, 1⟩, ⟨0, 1⟩, ⟨1, 1⟩], 0⟩]).getD 0 0 ≠
      (GlbObj.corner_slots
        [⟨[⟨0, 1⟩, ⟨1, 2⟩], [⟨0, 1⟩, ⟨0, 1⟩, ⟨1, 1⟩], 0⟩,
          ⟨[⟨0, 1⟩, ⟨1, 2⟩], [⟨0, 1⟩, ⟨0, 1⟩, ⟨1, 1⟩], 1⟩,
          ⟨[⟨0, 1⟩, ⟨1, 2⟩], [⟨0, 1⟩, ⟨0, 1⟩, ⟨1, 1⟩], 0⟩]).getD 1 0 :=
  ⟨(corner_dedup_same_key_iff_same_slot _ 0 2 (by decide) (by decide)).mpr
      (by decide),
    fun h =>
      absurd ((corner_dedup_same_key_iff_same_slot _ 0 1 (by decide)
        (by decide)).mp h) (by decide)⟩
